import Mathlib

/-!
Verification of the deterministic field validation / normalization engine of the
network-asset inventory cleaner (`run.py`, class `DataNormalizer`).

Strings are modelled as `List Char`.  Python string primitives (`strip`, `lower`,
`upper`, `split`, `in`, `startswith`, `re` character classes) are modelled over the
ASCII alphabet, which is the alphabet the validators' grammars and all claims are
about.  Reason codes, trace tokens and confidence labels — which the program only
ever builds from string literals — are kept as Lean `String` atoms; field data
flowing through the validators is `List Char`.
-/

set_option maxRecDepth 20000

namespace DataNorm

/-- View a Lean string literal as the character-list representation used throughout. -/
def str (s : String) : List Char := s.data

/-! ### Character classes (ASCII, matching Python's `str` methods / `re` classes) -/

/-- Whitespace recognized by Python `str.strip` and `\s` (ASCII fragment). -/
def spaceChars : List Char := [' ', '\t', '\n', '\r', '\x0b', '\x0c']

def isSpaceCh (c : Char) : Bool := spaceChars.contains c

def digitChars : List Char := ['0','1','2','3','4','5','6','7','8','9']

def isDigitCh (c : Char) : Bool := digitChars.contains c

def hexChars : List Char :=
  digitChars ++ ['a','b','c','d','e','f','A','B','C','D','E','F']

def isHexCh (c : Char) : Bool := hexChars.contains c

def alphaChars : List Char :=
  ['a','b','c','d','e','f','g','h','i','j','k','l','m','n','o','p','q','r','s','t',
   'u','v','w','x','y','z',
   'A','B','C','D','E','F','G','H','I','J','K','L','M','N','O','P','Q','R','S','T',
   'U','V','W','X','Y','Z']

def isAlphaCh (c : Char) : Bool := alphaChars.contains c

def isAlnumCh (c : Char) : Bool := isAlphaCh c || isDigitCh c

/-- Regex word character `\w` (ASCII fragment). -/
def isWordCh (c : Char) : Bool := isAlnumCh c || c = '_'

/-- Pairs (uppercase, lowercase) for ASCII case conversion. -/
def casePairs : List (Char × Char) :=
  [('A','a'),('B','b'),('C','c'),('D','d'),('E','e'),('F','f'),('G','g'),('H','h'),
   ('I','i'),('J','j'),('K','k'),('L','l'),('M','m'),('N','n'),('O','o'),('P','p'),
   ('Q','q'),('R','r'),('S','s'),('T','t'),('U','u'),('V','v'),('W','w'),('X','x'),
   ('Y','y'),('Z','z')]

/-- ASCII lower-casing of one character (Python `str.lower`, ASCII fragment). -/
def asciiLower (c : Char) : Char :=
  match casePairs.lookup c with
  | some d => d
  | none => c

/-- ASCII upper-casing of one character (Python `str.upper`, ASCII fragment). -/
def asciiUpper (c : Char) : Char :=
  match (casePairs.map (fun p => (p.2, p.1))).lookup c with
  | some d => d
  | none => c

def pyLower (l : List Char) : List Char := l.map asciiLower

def pyUpper (l : List Char) : List Char := l.map asciiUpper

/-- Python `str.strip()` (ASCII whitespace fragment). -/
def pyStrip (l : List Char) : List Char :=
  ((l.dropWhile isSpaceCh).reverse.dropWhile isSpaceCh).reverse

/-- `a in l` for a single character. -/
def hasCh (l : List Char) (a : Char) : Bool := l.any (fun c => c = a)

/-- Python `s.split(sep)` for a one-character separator: always returns ≥ 1 part. -/
def splitOnChar (sep : Char) : List Char → List (List Char)
  | [] => [[]]
  | c :: rest =>
    match splitOnChar sep rest with
    | [] => [[]]
    | part :: parts =>
      if c = sep then [] :: part :: parts else (c :: part) :: parts

/-- Python `sep.join(parts)` for a one-character separator. -/
def joinSep (sep : Char) : List (List Char) → List Char
  | [] => []
  | [p] => p
  | p :: q :: rest => p ++ sep :: joinSep sep (q :: rest)

/-- `hay.startswith(needle)`. -/
def startsWith : List Char → List Char → Bool
  | _, [] => true
  | [], _ :: _ => false
  | a :: as, b :: bs => (a = b) && startsWith as bs

/-- `needle in hay` (substring containment). -/
def containsSub : List Char → List Char → Bool
  | [], needle => startsWith [] needle
  | c :: rest, needle => startsWith (c :: rest) needle || containsSub rest needle

/-! ### Decimal digits and rendering (`int(p, 10)` and `str(v)`) -/

/-- Value of a digit string, as computed by `int` on an all-digit string. -/
def digitsToNat (l : List Char) : Nat :=
  l.foldl (fun a c => 10 * a + (c.toNat - 48)) 0

def digitChar : Nat → Char
  | 0 => '0' | 1 => '1' | 2 => '2' | 3 => '3' | 4 => '4'
  | 5 => '5' | 6 => '6' | 7 => '7' | 8 => '8' | _ => '9'

def natToDigitsAux : Nat → Nat → List Char → List Char
  | 0, _, acc => acc
  | fuel + 1, n, acc =>
    if n < 10 then digitChar n :: acc
    else natToDigitsAux fuel (n / 10) (digitChar (n % 10) :: acc)

/-- Decimal rendering of a natural number, as produced by Python `str(v)`. -/
def natToDigits (n : Nat) : List Char := natToDigitsAux (n + 1) n []

/-- Rendering of an integer, as produced by an f-string `{v}`. -/
def intRender (i : Int) : List Char :=
  if i < 0 then '-' :: natToDigits i.natAbs else natToDigits i.toNat

/-! ### IPv4 validator / normalizer (`ipv4_validate_and_normalize`) -/

/-- The per-octet loop of `ipv4_validate_and_normalize`: first failure wins,
on success every octet is re-rendered without leading zeros.
(The `int(p, 10)` call cannot fail after the ASCII `isdigit` check, and the
parsed value of a digit string is never negative, so the Python `parse_error`
and `v < 0` branches are unreachable in this ASCII model.) -/
def octetsCheck : List (List Char) → Except String (List (List Char))
  | [] => .ok []
  | p :: rest =>
    match p with
    | [] => .error "empty_octet"
    | c :: _ =>
      if c = '-' then .error "negative_octet"
      else if !p.all isDigitCh then .error "non_numeric_octet"
      else if 255 < digitsToNat p then .error "octet_out_of_range"
      else
        match octetsCheck rest with
        | .error e => .error e
        | .ok cs => .ok (natToDigits (digitsToNat p) :: cs)

/-- `ipv4_validate_and_normalize(ip_str)`: returns (valid, value, ip_version, reason). -/
def ipv4_validate_and_normalize (ip_str : List Char) :
    Bool × List Char × String × String :=
  if pyStrip ip_str = [] ∨ pyUpper (pyStrip ip_str) = str "N/A" then
    (false, ip_str, "", "missing")
  else
    let s := pyStrip ip_str
    if hasCh s ':' || hasCh s '%' then (false, s, "6", "ipv6_detected")
    else
      let parts := splitOnChar '.' s
      if parts.length ≠ 4 then (false, s, "", "wrong_part_count")
      else
        match octetsCheck parts with
        | .error r => (false, s, "", r)
        | .ok cs => (true, joinSep '.' cs, "4", "ok")

example :
    ipv4_validate_and_normalize (str " 010.0.255.7 ") =
      (true, str "10.0.255.7", "4", "ok") := by decide

example :
    ipv4_validate_and_normalize (str "300.1.1.1") =
      (false, str "300.1.1.1", "", "octet_out_of_range") := by decide

example :
    ipv4_validate_and_normalize (str "::1") =
      (false, str "::1", "6", "ipv6_detected") := by decide

example :
    ipv4_validate_and_normalize (str "n/a") =
      (false, str "n/a", "", "missing") := by decide

/-! ### IPv4 scope classification, default subnet, reverse pointer -/

/-- Python `int(p)` on one split part (optional sign followed by digits;
`None` models a raised `ValueError`). -/
def pyIntOpt (l : List Char) : Option Int :=
  match l with
  | [] => none
  | c :: rest =>
    if c = '-' then
      if rest ≠ [] ∧ rest.all isDigitCh then some (-(digitsToNat rest : Int)) else none
    else if c = '+' then
      if rest ≠ [] ∧ rest.all isDigitCh then some ((digitsToNat rest : Int)) else none
    else if (c :: rest).all isDigitCh then some ((digitsToNat (c :: rest) : Int)) else none

/-- Parse every part with `int`, propagating a raised `ValueError` as `none`. -/
def parseInts : List (List Char) → Option (List Int)
  | [] => some []
  | p :: ps =>
    match pyIntOpt p, parseInts ps with
    | some v, some vs => some (v :: vs)
    | _, _ => none

/-- `list(map(int, ip.split(".")))`; `none` models a raised exception. -/
def parseOctets (ip : List Char) : Option (List Int) :=
  parseInts (splitOnChar '.' ip)

/-- `classify_ipv4_type(ip)`.  The Python body is a sequence of `if … : return …`
checks guarded by a catch-all `except` (parse failures and out-of-range indexing
yield `"unknown"`).  Each branch below flattens the remaining checks, which are
vacuous there because `octets[0]` is already fixed by the branch condition. -/
def classify_ipv4_type (ip : List Char) : String :=
  match parseOctets ip with
  | none => "unknown"
  | some octets =>
    match octets.get? 0 with
    | none => "unknown"
    | some o0 =>
      if o0 = 10 then "private_rfc1918"
      else if o0 = 172 then
        match octets.get? 1 with
        | none => "unknown"
        | some o1 => if 16 ≤ o1 ∧ o1 ≤ 31 then "private_rfc1918" else "public_or_other"
      else if o0 = 192 then
        match octets.get? 1 with
        | none => "unknown"
        | some o1 => if o1 = 168 then "private_rfc1918" else "public_or_other"
      else if o0 = 169 then
        match octets.get? 1 with
        | none => "unknown"
        | some o1 => if o1 = 254 then "link_local_apipa" else "public_or_other"
      else if o0 = 127 then "loopback"
      else "public_or_other"

/-- `default_subnet(ip)`.  For non-4-part private classifications Python would
raise an uncaught `IndexError` in the f-string; that situation cannot arise for
the canonical addresses this function is applied to, and is modelled as `[]`. -/
def default_subnet (ip : List Char) : List Char :=
  if classify_ipv4_type ip = "private_rfc1918" then
    match parseOctets ip with
    | some (p0 :: p1 :: p2 :: _) =>
      intRender p0 ++ '.' :: intRender p1 ++ '.' :: intRender p2 ++ str ".0/24"
    | _ => []
  else []

/-- `generate_reverse_ptr(ip, ip_valid)`: the `except` catches the `IndexError`
raised when the split has fewer than 4 parts. -/
def generate_reverse_ptr (ip : List Char) (ip_valid : Bool) : List Char :=
  if !ip_valid then []
  else
    match splitOnChar '.' ip with
    | o0 :: o1 :: o2 :: o3 :: _ =>
      o3 ++ '.' :: o2 ++ '.' :: o1 ++ '.' :: o0 ++ str ".in-addr.arpa"
    | _ => []

example : classify_ipv4_type (str "10.1.2.3") = "private_rfc1918" := by decide
example : classify_ipv4_type (str "172.15.0.1") = "public_or_other" := by decide
example : classify_ipv4_type (str "169.254.9.9") = "link_local_apipa" := by decide
example : default_subnet (str "10.1.2.3") = str "10.1.2.0/24" := by decide
example : generate_reverse_ptr (str "10.1.2.3") true = str "3.2.1.10.in-addr.arpa" := by
  decide

/-! ### Hostname / FQDN validators and the consistency check -/

/-- The RFC-1123 label rule, the explicit grammar equivalent of the source regex
`^[a-zA-Z0-9]([a-zA-Z0-9-]{0,61}[a-zA-Z0-9])?$`: length 1–63, alphanumeric first
and last character, alphanumeric-or-hyphen throughout. -/
def validLabel (l : List Char) : Bool :=
  match l, l.reverse with
  | c :: _, d :: _ =>
    l.length ≤ 63 && isAlnumCh c && isAlnumCh d &&
      l.all (fun x => isAlnumCh x || x = '-')
  | _, _ => false

/-- `validate_hostname(hostname)`: returns (valid, reason). -/
def validate_hostname (hostname : List Char) : Bool × String :=
  if pyStrip hostname = [] then (false, "missing")
  else
    let h := pyStrip hostname
    if 253 < h.length then (false, "too_long")
    else if !validLabel h then (false, "invalid_format")
    else (true, "ok")

/-- The per-label loop of `validate_fqdn`. -/
def fqdnLabelsCheck : List (List Char) → Bool × String
  | [] => (true, "ok")
  | l :: rest =>
    if 63 < l.length || l.length = 0 then (false, "invalid_label_length")
    else if !validLabel l then (false, "invalid_label_format")
    else fqdnLabelsCheck rest

/-- `validate_fqdn(fqdn)`: returns (valid, reason). -/
def validate_fqdn (fqdn : List Char) : Bool × String :=
  if pyStrip fqdn = [] then (false, "missing")
  else
    let f := pyStrip fqdn
    if !hasCh f '.' then (false, "missing_domain")
    else fqdnLabelsCheck (splitOnChar '.' f)

/-- `check_fqdn_consistency(hostname, fqdn)`. -/
def check_fqdn_consistency (hostname fqdn : List Char) : Bool :=
  if hostname = [] ∨ fqdn = [] then false
  else startsWith (pyLower fqdn) (pyLower hostname ++ ['.'])

example : validate_hostname (str "web-01") = (true, "ok") := by decide
example : validate_hostname (str "-web") = (false, "invalid_format") := by decide
example : validate_fqdn (str "web-01.corp.example.com") = (true, "ok") := by decide
example : validate_fqdn (str "web01") = (false, "missing_domain") := by decide
example : check_fqdn_consistency (str "WEB-01") (str "web-01.corp.example.com") = true := by
  decide

/-! ### MAC normalizer (`normalize_mac`) -/

def macSeps : List Char := ['-', ':', '.']

/-- Successive pairs `cleaned[i:i+2]` for `i = 0, 2, …` (the input always has
exactly 12 characters where this is used). -/
def chunkPairs : List Char → List (List Char)
  | [] => []
  | [a] => [[a]]
  | a :: b :: rest => [a, b] :: chunkPairs rest

/-- `normalize_mac(mac)`: returns (valid, value, reason). -/
def normalize_mac (mac : List Char) : Bool × List Char × String :=
  if pyStrip mac = [] then (false, [], "missing")
  else
    let m := pyStrip mac
    let cleaned := m.filter (fun c => !macSeps.contains c)
    if cleaned.length = 12 && cleaned.all isHexCh then
      (true, joinSep ':' (chunkPairs (cleaned.map asciiLower)), "ok")
    else (false, m, "invalid_format")

example :
    normalize_mac (str "AA-BB-CC-DD-EE-FF") = (true, str "aa:bb:cc:dd:ee:ff", "ok") := by
  decide
example : normalize_mac (str "AABBCCDDEE") = (false, str "AABBCCDDEE", "invalid_format") := by
  decide

/-! ### Site normalizer (`normalize_site`)

The regex substitutions of the source are modelled directly:
`re.sub(r'[-_]+', ' ', s)` and `re.sub(r'\s+', ' ', s)` replace maximal runs,
`re.sub(r'\b(w)\b', rep, s, flags=IGNORECASE)` replaces case-insensitive
whole-word occurrences scanning left to right without overlap, and
`re.sub(r'([a-zA-Z])(\d)', r'\1 \2', s)` inserts a space in each letter-digit
adjacency. -/

def isSepDU (c : Char) : Bool := c = '-' || c = '_'

/-- Replace each maximal run of characters satisfying `p` by a single space.
The flag records whether the previous character was part of a run. -/
def collapseRunsAux (p : Char → Bool) : Bool → List Char → List Char
  | _, [] => []
  | inRun, c :: rest =>
    if p c then
      if inRun then collapseRunsAux p true rest
      else ' ' :: collapseRunsAux p true rest
    else c :: collapseRunsAux p false rest

def collapseRuns (p : Char → Bool) (s : List Char) : List Char :=
  collapseRunsAux p false s

/-- Case-insensitive literal match of `w` against a prefix of `s`;
returns the remainder on success. -/
def matchWordCI : List Char → List Char → Option (List Char)
  | [], s => some s
  | _ :: _, [] => none
  | w :: ws, c :: cs =>
    if asciiLower w = asciiLower c then matchWordCI ws cs else none

/-- Word boundary `\b` after a match: end of string or a non-word character. -/
def boundaryAfter : List Char → Bool
  | [] => true
  | c :: _ => !isWordCh c

/-- Try the alternation `(w₁|w₂|…)\b` at the current position (leftmost
alternative first, as Python `re` does); returns the remainder after a match. -/
def tryWords (ws : List (List Char)) (s : List Char) : Option (List Char) :=
  match ws with
  | [] => none
  | w :: rest =>
    match matchWordCI w s with
    | some rem => if boundaryAfter rem then some rem else tryWords rest s
    | none => tryWords rest s

/-- Scanner for `re.sub(r'\b(w₁|w₂|…)\b', rep, s, flags=IGNORECASE)`.  The Bool
argument tracks whether the previous character of the original string is a word
character (so that `\b` holds exactly when it is false).  The fuel argument is
an upper bound on the remaining length; the initial call supplies `s.length`,
which suffices because every step consumes at least one character. -/
def wordsSubAux (ws : List (List Char)) (rep : List Char) :
    Nat → Bool → List Char → List Char
  | 0, _, s => s
  | _ + 1, _, [] => []
  | fuel + 1, prevW, c :: rest =>
    if prevW then c :: wordsSubAux ws rep fuel (isWordCh c) rest
    else
      match tryWords ws (c :: rest) with
      | some rem =>
        if rem.length < rest.length + 1 then rep ++ wordsSubAux ws rep fuel true rem
        else c :: wordsSubAux ws rep fuel (isWordCh c) rest
      | none => c :: wordsSubAux ws rep fuel (isWordCh c) rest

def wordsSub (ws : List (List Char)) (rep : List Char) (s : List Char) : List Char :=
  wordsSubAux ws rep s.length false s

/-- `re.sub(r'([a-zA-Z])(\d)', r'\1 \2', s)`: non-overlapping left-to-right
scan; after a match the scan resumes after the digit. -/
def spaceLetterDigit : List Char → List Char
  | [] => []
  | [a] => [a]
  | a :: b :: rest =>
    if isAlphaCh a && isDigitCh b then a :: ' ' :: b :: spaceLetterDigit rest
    else a :: spaceLetterDigit (b :: rest)

/-- `normalize_site(site)`. -/
def normalize_site (site : List Char) : List Char :=
  if pyStrip site = [] ∨ pyUpper (pyStrip site) = str "N/A" then []
  else
    let s0 := pyStrip site
    let s1 := collapseRuns isSepDU s0
    let s2 := collapseRuns isSpaceCh s1
    let s3 := wordsSub [str "bldg", str "building"] (str "Building") s2
    let s4 := wordsSub [str "campus"] (str "Campus") s3
    let s5 := wordsSub [str "hq"] (str "HQ") s4
    let s6 := wordsSub [str "lab"] (str "Lab") s5
    let s7 := wordsSub [str "dc"] (str "DC") s6
    let s8 := spaceLetterDigit s7
    pyStrip (collapseRuns isSpaceCh s8)

example : normalize_site (str "bldg-1_campus") = str "Building 1 Campus" := by decide
example : normalize_site (str "  hq   dc2 ") = str "HQ dc 2" := by decide
example : normalize_site (str "n/a") = [] := by decide

/-! ### Device-type classifier (`classify_device_type_llm`)

The model backend is an external collaborator: it is abstracted as an
`Option (List Char × String)` argument holding the (classification, confidence
level) it would produce, with `none` for "backend unavailable or failed", in
which case the deterministic keyword fallback of the source runs. -/

structure Row where
  ip : List Char
  hostname : List Char
  fqdn : List Char
  mac : List Char
  owner : List Char
  device_type : List Char
  notes : List Char
  site : List Char
  source_row_id : List Char

def knownTypes : List (List Char) :=
  [str "server", str "router", str "switch", str "printer", str "iot",
   str "firewall", str "access point", str "workstation"]

def serverKeys : List (List Char) :=
  [str "srv", str "server", str "db", str "host", str "sql", str "web", str "app"]
def routerKeys : List (List Char) :=
  [str "rtr", str "router", str "gw", str "gateway", str "edge"]
def switchKeys : List (List Char) := [str "sw", str "switch", str "core"]
def printerKeys : List (List Char) := [str "print", str "printer"]
def iotKeys : List (List Char) := [str "cam", str "camera", str "iot", str "sensor"]
def apKeys : List (List Char) := [str "ap", str "access", str "wireless", str "wifi"]
def firewallKeys : List (List Char) := [str "fw", str "firewall"]
def workstationKeys : List (List Char) :=
  [str "pc", str "laptop", str "desktop", str "workstation"]

def classify_device_type_llm (backend : Option (List Char × String)) (row : Row) :
    List Char × String :=
  let device_type := pyLower (pyStrip row.device_type)
  if device_type ∈ knownTypes then (device_type, "high")
  else
    match backend with
    | some res => res
    | none =>
      let clues := pyLower (pyStrip row.hostname ++ ' ' :: pyStrip row.notes)
      if serverKeys.any (fun k => containsSub clues k) then (str "server", "medium")
      else if routerKeys.any (fun k => containsSub clues k) then (str "router", "medium")
      else if switchKeys.any (fun k => containsSub clues k) then (str "switch", "medium")
      else if printerKeys.any (fun k => containsSub clues k) then (str "printer", "medium")
      else if iotKeys.any (fun k => containsSub clues k) then (str "iot", "medium")
      else if apKeys.any (fun k => containsSub clues k) then (str "access point", "medium")
      else if firewallKeys.any (fun k => containsSub clues k) then (str "firewall", "medium")
      else if workstationKeys.any (fun k => containsSub clues k) then
        (str "workstation", "medium")
      else (str "unknown", "low")

/-- The fallback categories with their keyword sets, in the priority order of the
source, used to state the first-match property. -/
def fallbackCats : List (List Char × List (List Char)) :=
  [(str "server", serverKeys), (str "router", routerKeys), (str "switch", switchKeys),
   (str "printer", printerKeys), (str "iot", iotKeys), (str "access point", apKeys),
   (str "firewall", firewallKeys), (str "workstation", workstationKeys)]

/-! ### Anomalies and recommendations (`generate_recommendations`) -/

structure Issue where
  field : String
  type : String
  value : List Char
deriving DecidableEq

structure Anomaly where
  source_row_id : List Char
  issues : List Issue
  recommended_actions : List String
deriving DecidableEq

/-- `needle in hay` on string atoms. -/
def strContains (hay needle : String) : Bool := containsSub hay.data needle.data

/-- The per-issue body of the loop in `generate_recommendations`: the list of
recommendations appended for one issue (empty for fields outside the mapping). -/
def recFor (issue : Issue) : List String :=
  if issue.field = "ip" then
    if strContains issue.type "out_of_range" then
      ["Correct IP octets to valid range (0-255)"]
    else if strContains issue.type "wrong_part_count" then
      ["Verify IP address has exactly 4 octets"]
    else if strContains issue.type "ipv6" then
      ["Use IPv4 address or update schema to support IPv6"]
    else ["Correct or validate IP address format"]
  else if issue.field = "hostname" then ["Update hostname to meet RFC 1123 standards"]
  else if issue.field = "mac" then ["Correct MAC address to valid 12-digit hex format"]
  else if issue.field = "fqdn" then ["Ensure FQDN has valid domain structure"]
  else []

/-- `generate_recommendations(issues)`. -/
def generate_recommendations (issues : List Issue) : List String :=
  let recs := (issues.map recFor).flatten
  if recs = [] then ["Review and correct field data"] else recs

/-- The single recommendation an in-pipeline issue (field ∈ {ip, hostname, mac,
fqdn}) maps to; used to state the one-recommendation-per-issue property. -/
def oneRec (issue : Issue) : String :=
  if issue.field = "ip" then
    if strContains issue.type "out_of_range" then "Correct IP octets to valid range (0-255)"
    else if strContains issue.type "wrong_part_count" then
      "Verify IP address has exactly 4 octets"
    else if strContains issue.type "ipv6" then
      "Use IPv4 address or update schema to support IPv6"
    else "Correct or validate IP address format"
  else if issue.field = "hostname" then "Update hostname to meet RFC 1123 standards"
  else if issue.field = "mac" then "Correct MAC address to valid 12-digit hex format"
  else "Ensure FQDN has valid domain structure"

/-! ### The per-record pipeline (`process`, lines 435–561)

CSV reading and writing are adapters outside the core; the body of the per-row
loop is embedded as a pure function of one row.  The two external collaborators
are abstracted as arguments: `ownerRes` is the (name, email, team) triple
produced by the owner parser, `backend` the optional device-classifier backend
result.  The `normalization_steps` trace is kept as the token list (the source
serializes it with `"|".join`), and boolean flags are kept as `Bool` (the
source serializes them as `"true"`/`"false"`). -/

structure ProcOut where
  ip : List Char
  ip_valid : Bool
  ip_version : String
  subnet_cidr : List Char
  hostname : List Char
  hostname_valid : Bool
  fqdn : List Char
  fqdn_consistent : Bool
  reverse_ptr : List Char
  mac : List Char
  mac_valid : Bool
  owner : List Char
  owner_email : List Char
  owner_team : List Char
  device_type : List Char
  device_type_confidence : String
  site : List Char
  site_normalized : List Char
  source_row_id : List Char
  normalization_steps : List String
deriving DecidableEq

structure ProcResult where
  out : ProcOut
  issues : List Issue
  anomaly : Option Anomaly
deriving DecidableEq

def processRow (row : Row) (ownerRes : List Char × List Char × List Char)
    (backend : Option (List Char × String)) : ProcResult :=
  let r1 := ipv4_validate_and_normalize row.ip
  let ip_valid := r1.1
  let ip_normalized := r1.2.1
  let ip_version := r1.2.2.1
  let ip_reason := r1.2.2.2
  let steps1 : List String :=
    ["ip_trim"] ++
      (if ip_valid then ["ip_parse", "ip_normalize"] else ["ip_invalid_" ++ ip_reason])
  let subnet_cidr := if ip_valid then default_subnet ip_normalized else []
  let reverse_ptr := if ip_valid then generate_reverse_ptr ip_normalized true else []
  let issues1 : List Issue :=
    if ip_valid then [] else [⟨"ip", ip_reason, row.ip⟩]
  let r2 := validate_hostname row.hostname
  let hostname_valid := r2.1
  let hostname_reason := r2.2
  let hostname_out := pyStrip row.hostname
  let steps2 := steps1 ++ ["hostname_trim"] ++
    (if hostname_valid then ["hostname_validate"]
     else ["hostname_invalid_" ++ hostname_reason])
  let issues2 := issues1 ++
    (if hostname_valid then []
     else if pyStrip row.hostname = [] then []
     else [⟨"hostname", hostname_reason, row.hostname⟩])
  let r3 := validate_fqdn row.fqdn
  let fqdn_valid := r3.1
  let fqdn_reason := r3.2
  let fqdn_out := pyStrip row.fqdn
  let fqdn_consistent :=
    if fqdn_valid then check_fqdn_consistency hostname_out fqdn_out else false
  let steps3 := steps2 ++ ["fqdn_trim"] ++ (if fqdn_valid then ["fqdn_validate"] else [])
  let issues3 := issues2 ++
    (if fqdn_valid then []
     else if pyStrip row.fqdn = [] then []
     else [⟨"fqdn", fqdn_reason, row.fqdn⟩])
  let r4 := normalize_mac row.mac
  let mac_valid := r4.1
  let mac_normalized := r4.2.1
  let mac_reason := r4.2.2
  let mac_out := if mac_valid then mac_normalized else pyStrip row.mac
  let steps4 := steps3 ++ ["mac_trim"] ++
    (if mac_valid then ["mac_normalize"]
     else if pyStrip row.mac = [] then []
     else ["mac_invalid_" ++ mac_reason])
  let issues4 := issues3 ++
    (if mac_valid then []
     else if pyStrip row.mac = [] then []
     else [⟨"mac", mac_reason, row.mac⟩])
  let dres := classify_device_type_llm backend row
  let steps5 := steps4 ++
    ["owner_parse_llm", "device_classify_llm_" ++ dres.2, "site_normalize"]
  let site_normalized := normalize_site row.site
  let out : ProcOut :=
    { ip := if ip_valid then ip_normalized else pyStrip row.ip
      ip_valid := ip_valid
      ip_version := ip_version
      subnet_cidr := subnet_cidr
      hostname := hostname_out
      hostname_valid := hostname_valid
      fqdn := fqdn_out
      fqdn_consistent := fqdn_consistent
      reverse_ptr := reverse_ptr
      mac := mac_out
      mac_valid := mac_valid
      owner := ownerRes.1
      owner_email := ownerRes.2.1
      owner_team := ownerRes.2.2
      device_type := dres.1
      device_type_confidence := dres.2
      site := pyStrip row.site
      site_normalized := site_normalized
      source_row_id := row.source_row_id
      normalization_steps := steps5 }
  let anomaly :=
    if issues4 = [] then none
    else some (⟨row.source_row_id, issues4, generate_recommendations issues4⟩ : Anomaly)
  ⟨out, issues4, anomaly⟩

example :
    (processRow ⟨str "10.1.2.3", str "web-01", str "web-01.corp.example.com",
        str "AA-BB-CC-DD-EE-FF", str "", str "server", str "", str "bldg-1", str "r1"⟩
      ([], [], []) none).out.normalization_steps =
    ["ip_trim", "ip_parse", "ip_normalize", "hostname_trim", "hostname_validate",
     "fqdn_trim", "fqdn_validate", "mac_trim", "mac_normalize", "owner_parse_llm",
     "device_classify_llm_high", "site_normalize"] := by decide

example :
    (processRow ⟨str "10.1.2.3", str "web-01", str "web-01.corp.example.com",
        str "AA-BB-CC-DD-EE-FF", str "", str "server", str "", str "bldg-1", str "r1"⟩
      ([], [], []) none).anomaly = none := by decide

/-! ## Support lemmas -/

section Support

lemma isDigitCh_iff {c : Char} : isDigitCh c = true ↔ c ∈ digitChars := by
  simp [isDigitCh, List.elem_iff]

lemma isHexCh_iff {c : Char} : isHexCh c = true ↔ c ∈ hexChars := by
  simp [isHexCh, List.elem_iff]

/-- Facts about a decimal digit character used across the IPv4 proofs. -/
lemma digit_facts {c : Char} (h : c ∈ digitChars) :
    isSpaceCh c = false ∧ c ≠ '.' ∧ c ≠ ':' ∧ c ≠ '%' ∧ c ≠ '-' ∧ c ≠ '+' ∧
      asciiUpper c = c ∧ asciiUpper c ≠ 'N' ∧ isDigitCh c = true ∧ c.toNat - 48 ≤ 9 := by
  fin_cases h <;> decide

/-- Facts about a hexadecimal digit character used in the MAC proofs. -/
lemma hex_facts {c : Char} (h : c ∈ hexChars) :
    isHexCh (asciiLower c) = true ∧ asciiLower (asciiLower c) = asciiLower c ∧
      isSpaceCh (asciiLower c) = false ∧ macSeps.contains (asciiLower c) = false := by
  fin_cases h <;> decide

/-! ### `pyStrip` -/

lemma dropWhile_append_all {p : Char → Bool} {w l : List Char}
    (hw : ∀ c ∈ w, p c = true) : (w ++ l).dropWhile p = l.dropWhile p := by
  induction w with
  | nil => simp
  | cons a as ih =>
    simp only [List.cons_append, List.dropWhile_cons]
    rw [hw a (by simp), if_pos rfl]
    exact ih (fun c hc => hw c (by simp [hc]))

lemma dropWhile_all_neg {p : Char → Bool} {l : List Char}
    (h : ∀ c ∈ l, p c = false) : l.dropWhile p = l := by
  cases l with
  | nil => rfl
  | cons a as =>
    rw [List.dropWhile_cons, h a (by simp)]
    simp

lemma dropWhile_head_neg {p : Char → Bool} {l : List Char}
    (h : ∀ c, l.head? = some c → p c = false) : l.dropWhile p = l := by
  cases l with
  | nil => rfl
  | cons a as =>
    rw [List.dropWhile_cons, h a rfl]
    simp

/-- Stripping a string sandwiched between whitespace, when the core neither
starts nor ends with whitespace. -/
lemma pyStrip_sandwich {w1 w2 core : List Char}
    (hw1 : ∀ c ∈ w1, isSpaceCh c = true) (hw2 : ∀ c ∈ w2, isSpaceCh c = true)
    (h1 : ∀ c, core.head? = some c → isSpaceCh c = false)
    (h2 : ∀ c, core.getLast? = some c → isSpaceCh c = false) :
    pyStrip (w1 ++ core ++ w2) = core := by
  unfold pyStrip
  rw [List.append_assoc, dropWhile_append_all hw1]
  cases core with
  | nil =>
    simp only [List.nil_append]
    rw [List.dropWhile_eq_nil_iff.mpr (fun c hc => hw2 c hc)]
    rfl
  | cons a as =>
    have ha : isSpaceCh a = false := h1 a rfl
    rw [List.cons_append, List.dropWhile_cons, ha]
    simp only [Bool.false_eq_true, if_false]
    rw [show (a :: (as ++ w2)).reverse = w2.reverse ++ (a :: as).reverse by simp,
      dropWhile_append_all (by intro c hc; exact hw2 c (by simpa using hc)),
      dropWhile_head_neg (by
        intro c hc
        rw [List.head?_reverse] at hc
        exact h2 c hc),
      List.reverse_reverse]

lemma pyStrip_no_space {l : List Char} (h : ∀ c ∈ l, isSpaceCh c = false) :
    pyStrip l = l := by
  unfold pyStrip
  rw [dropWhile_all_neg h, dropWhile_all_neg (by intro c hc; exact h c (by simpa using hc)),
    List.reverse_reverse]

/-! ### `splitOnChar` -/

lemma splitOnChar_cons' (sep c : Char) (rest : List Char) :
    splitOnChar sep (c :: rest) =
      match splitOnChar sep rest with
      | [] => [[]]
      | part :: parts => if c = sep then [] :: part :: parts else (c :: part) :: parts := rfl

lemma splitOnChar_ne_nil (sep : Char) (l : List Char) : splitOnChar sep l ≠ [] := by
  cases l with
  | nil => simp [splitOnChar]
  | cons c rest =>
    rw [splitOnChar_cons']
    rcases splitOnChar sep rest with _ | ⟨part, parts⟩
    · simp
    · simp only
      split <;> simp

lemma splitOnChar_no_sep {sep : Char} {p : List Char} (h : ∀ c ∈ p, c ≠ sep) :
    splitOnChar sep p = [p] := by
  induction p with
  | nil => rfl
  | cons a as ih =>
    unfold splitOnChar
    rw [ih (fun c hc => h c (by simp [hc]))]
    simp [h a (by simp)]

lemma splitOnChar_append_sep {sep : Char} {p rest : List Char} (h : ∀ c ∈ p, c ≠ sep) :
    splitOnChar sep (p ++ sep :: rest) = p :: splitOnChar sep rest := by
  induction p with
  | nil =>
    simp only [List.nil_append]
    rw [splitOnChar_cons']
    rcases hs : splitOnChar sep rest with _ | ⟨part, parts⟩
    · exact absurd hs (splitOnChar_ne_nil sep rest)
    · simp
  | cons a as ih =>
    have ha : a ≠ sep := h a (by simp)
    simp only [List.cons_append]
    rw [splitOnChar_cons', ih (fun c hc => h c (by simp [hc]))]
    simp [ha]

/-- Splitting a dotted 4-part string whose parts contain no dot. -/
lemma splitOnChar_four {p1 p2 p3 p4 : List Char}
    (h1 : ∀ c ∈ p1, c ≠ '.') (h2 : ∀ c ∈ p2, c ≠ '.')
    (h3 : ∀ c ∈ p3, c ≠ '.') (h4 : ∀ c ∈ p4, c ≠ '.') :
    splitOnChar '.' (p1 ++ '.' :: (p2 ++ '.' :: (p3 ++ '.' :: p4))) = [p1, p2, p3, p4] := by
  rw [splitOnChar_append_sep h1, splitOnChar_append_sep h2, splitOnChar_append_sep h3,
    splitOnChar_no_sep h4]

/-! ### Decimal rendering -/

lemma natToDigitsAux_spec :
    ∀ n fuel acc, n < fuel → natToDigitsAux fuel n acc = natToDigits n ++ acc := by
  intro n
  induction n using Nat.strong_induction_on with
  | _ n ih =>
    intro fuel acc hfuel
    match fuel, hfuel with
    | fuel + 1, hfuel =>
      by_cases hn : n < 10
      · simp [natToDigitsAux, natToDigits, hn]
      · push_neg at hn
        have hdiv : n / 10 < n := Nat.div_lt_self (by omega) (by omega)
        have hstep : ∀ f acc', n / 10 < f →
            natToDigitsAux (f + 1) n acc' =
              natToDigits (n / 10) ++ digitChar (n % 10) :: acc' := by
          intro f acc' hf
          rw [show natToDigitsAux (f + 1) n acc' =
              natToDigitsAux f (n / 10) (digitChar (n % 10) :: acc') by
            simp [natToDigitsAux, Nat.not_lt.mpr hn]]
          exact ih (n / 10) hdiv f _ hf
        rw [hstep fuel acc (by omega)]
        rw [show natToDigits n = natToDigits (n / 10) ++ [digitChar (n % 10)] by
          rw [natToDigits, hstep n [] (by omega)]]
        simp

lemma natToDigits_lt {n : Nat} (h : n < 10) : natToDigits n = [digitChar n] := by
  simp [natToDigits, natToDigitsAux, h]

lemma natToDigits_ge {n : Nat} (h : 10 ≤ n) :
    natToDigits n = natToDigits (n / 10) ++ [digitChar (n % 10)] := by
  rw [natToDigits, show n + 1 = n + 1 by rfl]
  have hdiv : n / 10 < n := Nat.div_lt_self (by omega) (by omega)
  rw [show natToDigitsAux (n + 1) n [] =
      natToDigitsAux n (n / 10) [digitChar (n % 10)] by
    simp [natToDigitsAux, Nat.not_lt.mpr h]]
  exact natToDigitsAux_spec (n / 10) n _ (by omega)

lemma digitChar_mem {k : Nat} (h : k < 10) : digitChar k ∈ digitChars := by
  interval_cases k <;> decide

lemma digitChar_val {k : Nat} (h : k < 10) : (digitChar k).toNat - 48 = k := by
  interval_cases k <;> decide

lemma natToDigits_ne_nil (n : Nat) : natToDigits n ≠ [] := by
  by_cases h : n < 10
  · simp [natToDigits_lt h]
  · rw [natToDigits_ge (by omega)]
    simp

lemma natToDigits_digits (n : Nat) : ∀ c ∈ natToDigits n, c ∈ digitChars := by
  induction n using Nat.strong_induction_on with
  | _ n ih =>
    by_cases h : n < 10
    · rw [natToDigits_lt h]
      intro c hc
      rw [List.mem_singleton] at hc
      exact hc ▸ digitChar_mem h
    · push_neg at h
      rw [natToDigits_ge h]
      intro c hc
      rcases List.mem_append.mp hc with hc | hc
      · exact ih (n / 10) (Nat.div_lt_self (by omega) (by omega)) c hc
      · rw [List.mem_singleton] at hc
        exact hc ▸ digitChar_mem (Nat.mod_lt n (by omega))

lemma digitsToNat_append_last (l : List Char) (c : Char) :
    digitsToNat (l ++ [c]) = 10 * digitsToNat l + (c.toNat - 48) := by
  simp [digitsToNat, List.foldl_append]

lemma digitsToNat_natToDigits (n : Nat) : digitsToNat (natToDigits n) = n := by
  induction n using Nat.strong_induction_on with
  | _ n ih =>
    by_cases h : n < 10
    · rw [natToDigits_lt h]
      show 10 * 0 + ((digitChar n).toNat - 48) = n
      rw [digitChar_val h]
      omega
    · push_neg at h
      rw [natToDigits_ge h, digitsToNat_append_last,
        ih (n / 10) (Nat.div_lt_self (by omega) (by omega)),
        digitChar_val (Nat.mod_lt n (by omega))]
      omega

lemma natToDigits_head_ne_zero {n : Nat} (hn : 0 < n) :
    ∀ c, (natToDigits n).head? = some c → c ≠ '0' := by
  induction n using Nat.strong_induction_on with
  | _ n ih =>
    intro c hc
    by_cases h : n < 10
    · rw [natToDigits_lt h] at hc
      simp only [List.head?_cons, Option.some_inj] at hc
      subst hc
      interval_cases n <;> decide
    · push_neg at h
      rw [natToDigits_ge h, List.head?_append_of_ne_nil] at hc
      · exact ih (n / 10) (Nat.div_lt_self (by omega) (by omega))
          (Nat.div_pos h (by omega)) c hc
      · exact natToDigits_ne_nil _

/-! ### IPv4 success path -/

/-- One successful step of the octet loop. -/
lemma octetsCheck_cons_ok {p : List Char} (rest : List (List Char))
    (hne : p ≠ []) (hd : ∀ x ∈ p, x ∈ digitChars) (hv : digitsToNat p ≤ 255) :
    octetsCheck (p :: rest) =
      match octetsCheck rest with
      | .error e => .error e
      | .ok cs => .ok (natToDigits (digitsToNat p) :: cs) := by
  rcases p with _ | ⟨c, cs⟩
  · exact absurd rfl hne
  · show (if c = '-' then Except.error "negative_octet"
      else if !(c :: cs).all isDigitCh then Except.error "non_numeric_octet"
      else if 255 < digitsToNat (c :: cs) then Except.error "octet_out_of_range"
      else match octetsCheck rest with
        | .error e => .error e
        | .ok cs' => .ok (natToDigits (digitsToNat (c :: cs)) :: cs')) = _
    rw [if_neg ((digit_facts (hd c (by simp))).2.2.2.2.1),
      if_neg (by
        simp only [Bool.not_eq_true', Bool.not_eq_false]
        exact List.all_eq_true.mpr (fun x hx => isDigitCh_iff.mpr (hd x hx))),
      if_neg (by omega)]

/-- The full IPv4 validator on a whitespace-padded dotted string of four
all-digit parts whose values are in range. -/
lemma ipv4_wellformed {w1 w2 p1 p2 p3 p4 : List Char}
    (hw1 : ∀ x ∈ w1, isSpaceCh x = true) (hw2 : ∀ x ∈ w2, isSpaceCh x = true)
    (h1 : p1 ≠ []) (d1 : ∀ x ∈ p1, x ∈ digitChars) (v1 : digitsToNat p1 ≤ 255)
    (h2 : p2 ≠ []) (d2 : ∀ x ∈ p2, x ∈ digitChars) (v2 : digitsToNat p2 ≤ 255)
    (h3 : p3 ≠ []) (d3 : ∀ x ∈ p3, x ∈ digitChars) (v3 : digitsToNat p3 ≤ 255)
    (h4 : p4 ≠ []) (d4 : ∀ x ∈ p4, x ∈ digitChars) (v4 : digitsToNat p4 ≤ 255) :
    ipv4_validate_and_normalize
        (w1 ++ (p1 ++ '.' :: (p2 ++ '.' :: (p3 ++ '.' :: p4))) ++ w2) =
      (true,
        natToDigits (digitsToNat p1) ++ '.' :: (natToDigits (digitsToNat p2) ++
          '.' :: (natToDigits (digitsToNat p3) ++ '.' :: natToDigits (digitsToNat p4))),
        "4", "ok") := by
  obtain ⟨c1, cs1, hp1⟩ : ∃ y ys, p1 = y :: ys := by
    rcases p1 with _ | ⟨y, ys⟩
    · exact absurd rfl h1
    · exact ⟨y, ys, rfl⟩
  obtain ⟨e4, hlast4⟩ : ∃ y, p4.getLast? = some y := by
    rcases hlast : p4.getLast? with _ | y
    · exact absurd (List.getLast?_eq_none_iff.mp hlast) h4
    · exact ⟨y, rfl⟩
  have hmem : ∀ x ∈ p1 ++ '.' :: (p2 ++ '.' :: (p3 ++ '.' :: p4)),
      x ∈ digitChars ∨ x = '.' := by
    intro x hx
    simp only [List.mem_append, List.mem_cons] at hx
    rcases hx with hx | hx | hx | hx | hx | hx | hx
    · exact Or.inl (d1 x hx)
    · exact Or.inr hx
    · exact Or.inl (d2 x hx)
    · exact Or.inr hx
    · exact Or.inl (d3 x hx)
    · exact Or.inr hx
    · exact Or.inl (d4 x hx)
  have hstrip : pyStrip (w1 ++ (p1 ++ '.' :: (p2 ++ '.' :: (p3 ++ '.' :: p4))) ++ w2) =
      p1 ++ '.' :: (p2 ++ '.' :: (p3 ++ '.' :: p4)) := by
    apply pyStrip_sandwich hw1 hw2
    · intro x hx
      rw [hp1] at hx
      simp only [List.cons_append, List.head?_cons, Option.some_inj] at hx
      exact hx ▸ (digit_facts (d1 c1 (by rw [hp1]; simp))).1
    · intro x hx
      have hl : (p1 ++ '.' :: (p2 ++ '.' :: (p3 ++ '.' :: p4))).getLast? = some e4 := by
        rw [show p1 ++ '.' :: (p2 ++ '.' :: (p3 ++ '.' :: p4)) =
            (p1 ++ '.' :: (p2 ++ '.' :: (p3 ++ ['.']))) ++ p4 by simp,
          List.getLast?_append, hlast4]
        rfl
      rw [hl, Option.some_inj] at hx
      exact hx ▸ (digit_facts (d4 e4 (List.mem_of_mem_getLast? hlast4))).1
  have hne : p1 ++ '.' :: (p2 ++ '.' :: (p3 ++ '.' :: p4)) ≠ [] := by
    rw [hp1]; simp
  have hupper : pyUpper (p1 ++ '.' :: (p2 ++ '.' :: (p3 ++ '.' :: p4))) ≠ str "N/A" := by
    intro heq
    have hhead : asciiUpper c1 = 'N' := by
      have := congrArg List.head? heq
      rw [hp1] at this
      simpa [pyUpper, str] using this
    exact (digit_facts (d1 c1 (by rw [hp1]; simp))).2.2.2.2.2.2.2.1 hhead
  have hcolon : hasCh (p1 ++ '.' :: (p2 ++ '.' :: (p3 ++ '.' :: p4))) ':' = false := by
    rw [hasCh, List.any_eq_false]
    intro x hx
    rcases hmem x hx with hxd | hxd
    · simpa using (digit_facts hxd).2.2.1
    · rw [hxd]; decide
  have hpct : hasCh (p1 ++ '.' :: (p2 ++ '.' :: (p3 ++ '.' :: p4))) '%' = false := by
    rw [hasCh, List.any_eq_false]
    intro x hx
    rcases hmem x hx with hxd | hxd
    · simpa using (digit_facts hxd).2.2.2.1
    · rw [hxd]; decide
  have hsplit : splitOnChar '.' (p1 ++ '.' :: (p2 ++ '.' :: (p3 ++ '.' :: p4))) =
      [p1, p2, p3, p4] :=
    splitOnChar_four (fun x hx => (digit_facts (d1 x hx)).2.1)
      (fun x hx => (digit_facts (d2 x hx)).2.1)
      (fun x hx => (digit_facts (d3 x hx)).2.1)
      (fun x hx => (digit_facts (d4 x hx)).2.1)
  have hoct : octetsCheck [p1, p2, p3, p4] =
      .ok [natToDigits (digitsToNat p1), natToDigits (digitsToNat p2),
           natToDigits (digitsToNat p3), natToDigits (digitsToNat p4)] := by
    rw [octetsCheck_cons_ok _ h1 d1 v1, octetsCheck_cons_ok _ h2 d2 v2,
      octetsCheck_cons_ok _ h3 d3 v3, octetsCheck_cons_ok _ h4 d4 v4]
    rfl
  unfold ipv4_validate_and_normalize
  rw [hstrip, if_neg (by
    rintro (habs | habs)
    · exact hne habs
    · exact hupper habs)]
  simp only [hcolon, hpct, Bool.or_self, Bool.false_eq_true, if_false, hsplit]
  rw [if_neg (by simp), hoct]
  simp [joinSep]

/-! ### Reason-code bookkeeping -/

lemma octetsCheck_error :
    ∀ {ps : List (List Char)} {r : String}, octetsCheck ps = .error r →
      r = "empty_octet" ∨ r = "negative_octet" ∨ r = "non_numeric_octet" ∨
        r = "octet_out_of_range" := by
  intro ps
  induction ps with
  | nil => intro r h; simp [octetsCheck] at h
  | cons p rest ih =>
    intro r h
    rcases p with _ | ⟨c, cs⟩
    · simp only [octetsCheck] at h
      exact Or.inl (Except.error.inj h).symm
    · simp only [octetsCheck] at h
      split at h
      · exact Or.inr (Or.inl (Except.error.inj h).symm)
      · split at h
        · exact Or.inr (Or.inr (Or.inl (Except.error.inj h).symm))
        · split at h
          · exact Or.inr (Or.inr (Or.inr (Except.error.inj h).symm))
          · split at h
            · next e heq =>
                have he : e = r := Except.error.inj h
                exact he ▸ ih heq
            · exact absurd h (by simp)

lemma fqdnLabelsCheck_ok_iff :
    ∀ ls, ((fqdnLabelsCheck ls).1 = true ↔ (fqdnLabelsCheck ls).2 = "ok")
  | [] => by simp [fqdnLabelsCheck]
  | l :: rest => by
    unfold fqdnLabelsCheck
    split
    · simp
    · split
      · simp
      · exact fqdnLabelsCheck_ok_iff rest

/-! ### Success-shape inversions (for the fixed-point claims) -/

lemma octetsCheck_ok_inv :
    ∀ {ps : List (List Char)} {cs : List (List Char)}, octetsCheck ps = .ok cs →
      ∃ ns : List Nat, (∀ n ∈ ns, n ≤ 255) ∧ cs = ns.map natToDigits ∧
        ns.length = ps.length := by
  intro ps
  induction ps with
  | nil =>
    intro cs h
    refine ⟨[], by simp, ?_, by simp⟩
    have := Except.ok.inj h
    simp [← this]
  | cons p rest ih =>
    intro cs h
    rcases p with _ | ⟨c, cs'⟩
    · simp [octetsCheck] at h
    · simp only [octetsCheck] at h
      split at h
      · exact absurd h (by simp)
      · split at h
        · exact absurd h (by simp)
        · split at h
          · exact absurd h (by simp)
          · next hle =>
              split at h
              · exact absurd h (by simp)
              · next cs2 heq =>
                  obtain ⟨ns, hns, hcs, hlen⟩ := ih heq
                  refine ⟨digitsToNat (c :: cs') :: ns, ?_, ?_, by simp [hlen]⟩
                  · intro n hn
                    rcases List.mem_cons.mp hn with hn | hn
                    · subst hn; omega
                    · exact hns n hn
                  · rw [← Except.ok.inj h, hcs]
                    simp

lemma ipv4_success_inv {s v : List Char} {ver r : String}
    (h : ipv4_validate_and_normalize s = (true, v, ver, r)) :
    ∃ n1 n2 n3 n4 : Nat, n1 ≤ 255 ∧ n2 ≤ 255 ∧ n3 ≤ 255 ∧ n4 ≤ 255 ∧
      v = natToDigits n1 ++ '.' :: (natToDigits n2 ++ '.' :: (natToDigits n3 ++
        '.' :: natToDigits n4)) := by
  unfold ipv4_validate_and_normalize at h
  split at h
  · exact absurd h (by simp)
  · dsimp only at h
    split at h
    · exact absurd h (by simp)
    · split at h
      · exact absurd h (by simp)
      · next hlen =>
          split at h
          · exact absurd h (by simp)
          · next cs heq =>
              obtain ⟨ns, hns, hcs, hnslen⟩ := octetsCheck_ok_inv heq
              subst hcs
              simp only [Prod.mk.injEq, true_and] at h
              obtain ⟨hv, _, _⟩ := h
              have h4 : ns.length = 4 := by
                rw [hnslen]
                simpa using hlen
              rcases ns with _ | ⟨n1, ns⟩
              · simp at h4
              rcases ns with _ | ⟨n2, ns⟩
              · simp at h4
              rcases ns with _ | ⟨n3, ns⟩
              · simp at h4
              rcases ns with _ | ⟨n4, ns⟩
              · simp at h4
              rcases ns with _ | ⟨n5, ns⟩
              swap
              · simp at h4
              refine ⟨n1, n2, n3, n4, hns n1 (by simp), hns n2 (by simp),
                hns n3 (by simp), hns n4 (by simp), ?_⟩
              rw [← hv]
              simp [joinSep]

/-- A successfully normalized IPv4 value is a fixed point of the validator. -/
lemma ipv4_fixed {s v : List Char} {ver r : String}
    (h : ipv4_validate_and_normalize s = (true, v, ver, r)) :
    ipv4_validate_and_normalize v = (true, v, "4", "ok") := by
  obtain ⟨n1, n2, n3, n4, b1, b2, b3, b4, rfl⟩ := ipv4_success_inv h
  have hw := @ipv4_wellformed [] [] (natToDigits n1) (natToDigits n2)
    (natToDigits n3) (natToDigits n4) (by simp) (by simp)
    (natToDigits_ne_nil n1) (natToDigits_digits n1)
    (by rw [digitsToNat_natToDigits]; exact b1)
    (natToDigits_ne_nil n2) (natToDigits_digits n2)
    (by rw [digitsToNat_natToDigits]; exact b2)
    (natToDigits_ne_nil n3) (natToDigits_digits n3)
    (by rw [digitsToNat_natToDigits]; exact b3)
    (natToDigits_ne_nil n4) (natToDigits_digits n4)
    (by rw [digitsToNat_natToDigits]; exact b4)
  simpa [digitsToNat_natToDigits] using hw

/-! ### MAC fixed point -/

lemma chunkPairs_eq_nil_iff : ∀ {L : List Char}, chunkPairs L = [] ↔ L = []
  | [] => by simp [chunkPairs]
  | [a] => by simp [chunkPairs]
  | a :: b :: rest => by simp [chunkPairs]

lemma chunkPairs_join_mem :
    ∀ (L : List Char), ∀ c ∈ joinSep ':' (chunkPairs L), c = ':' ∨ c ∈ L
  | [] => by simp [chunkPairs, joinSep]
  | [a] => by
    intro c hc
    simp only [chunkPairs, joinSep, List.mem_singleton] at hc
    simp [hc]
  | a :: b :: rest => by
    intro c hc
    rw [chunkPairs] at hc
    rcases hrest : chunkPairs rest with _ | ⟨q, qs⟩
    · rw [hrest] at hc
      simp only [joinSep, List.mem_cons, List.not_mem_nil, or_false] at hc
      rcases hc with rfl | rfl
      · exact Or.inr (by simp)
      · exact Or.inr (by simp)
    · rw [hrest] at hc
      simp only [joinSep, List.cons_append, List.nil_append, List.mem_cons] at hc
      rcases hc with rfl | rfl | hc
      · exact Or.inr (by simp)
      · exact Or.inr (by simp)
      · rcases hc with rfl | hc'
        · exact Or.inl rfl
        · rcases chunkPairs_join_mem rest c (by rw [hrest]; exact hc') with h | h
          · exact Or.inl h
          · exact Or.inr (by simp [h])

lemma chunkPairs_join_filter :
    ∀ (L : List Char), (∀ c ∈ L, macSeps.contains c = false) →
      (joinSep ':' (chunkPairs L)).filter (fun c => !macSeps.contains c) = L
  | [], _ => by simp [chunkPairs, joinSep]
  | [a], h => by
    have ha : a ∉ macSeps := by simpa using h a (by simp)
    simp [chunkPairs, joinSep, List.filter_cons, ha]
  | a :: b :: rest, h => by
    have ha : a ∉ macSeps := by simpa using h a (by simp)
    have hb : b ∉ macSeps := by simpa using h b (by simp)
    have hco : ':' ∈ macSeps := by decide
    have ih := chunkPairs_join_filter rest (fun c hc => h c (by simp [hc]))
    rcases hrest : chunkPairs rest with _ | ⟨q, qs⟩
    · have hre : rest = [] := chunkPairs_eq_nil_iff.mp hrest
      subst hre
      simp [chunkPairs, joinSep, List.filter_cons, ha, hb]
    · rw [chunkPairs, hrest]
      rw [hrest] at ih
      simp only [List.elem_eq_mem] at ih
      simp only [joinSep, List.cons_append, List.nil_append] at ih ⊢
      simp [List.filter_cons, ha, hb, hco, ih]

lemma mac_fixed_core {L : List Char} (hlen : L.length = 12)
    (hhex : ∀ c ∈ L, c ∈ hexChars) :
    normalize_mac (joinSep ':' (chunkPairs (L.map asciiLower))) =
      (true, joinSep ':' (chunkPairs (L.map asciiLower)), "ok") := by
  have hM : ∀ c ∈ L.map asciiLower,
      isHexCh c = true ∧ asciiLower c = c ∧ isSpaceCh c = false ∧
        macSeps.contains c = false := by
    intro c hc
    obtain ⟨x, hx, rfl⟩ := List.mem_map.mp hc
    exact hex_facts (hhex x hx)
  have hMne : L.map asciiLower ≠ [] := by
    intro habs
    rw [List.map_eq_nil_iff] at habs
    subst habs
    simp at hlen
  have hjne : joinSep ':' (chunkPairs (L.map asciiLower)) ≠ [] := by
    rcases hm : L.map asciiLower with _ | ⟨a, _ | ⟨b, rest⟩⟩
    · exact absurd hm hMne
    · simp [chunkPairs, joinSep]
    · rw [chunkPairs]
      rcases chunkPairs rest with _ | ⟨q, qs⟩ <;> simp [joinSep]
  have hstrip : pyStrip (joinSep ':' (chunkPairs (L.map asciiLower))) =
      joinSep ':' (chunkPairs (L.map asciiLower)) := by
    apply pyStrip_no_space
    intro c hc
    rcases chunkPairs_join_mem _ c hc with h | h
    · rw [h]; decide
    · exact (hM c h).2.2.1
  unfold normalize_mac
  rw [hstrip, if_neg hjne]
  dsimp only
  rw [chunkPairs_join_filter _ (fun c hc => (hM c hc).2.2.2)]
  rw [if_pos (by
    simp only [Bool.and_eq_true, decide_eq_true_eq]
    exact ⟨by simp [hlen], List.all_eq_true.mpr (fun x hx => (hM x hx).1)⟩)]
  have hmap : (L.map asciiLower).map asciiLower = L.map asciiLower := by
    rw [List.map_map]
    apply List.map_congr_left
    intro x hx
    simp only [Function.comp_apply]
    exact (hex_facts (hhex x hx)).2.1
  rw [hmap]

/-! ### Canonical addresses: parsing and classification -/

lemma pyIntOpt_natToDigits (n : Nat) : pyIntOpt (natToDigits n) = some (n : Int) := by
  obtain ⟨c, cs, hc⟩ : ∃ y ys, natToDigits n = y :: ys := by
    rcases h : natToDigits n with _ | ⟨y, ys⟩
    · exact absurd h (natToDigits_ne_nil n)
    · exact ⟨y, ys, rfl⟩
  have hdig : ∀ x ∈ natToDigits n, x ∈ digitChars := natToDigits_digits n
  have hcd : c ∈ digitChars := hdig c (by rw [hc]; simp)
  rw [hc]
  show (if c = '-' then
        if cs ≠ [] ∧ cs.all isDigitCh then some (-(digitsToNat cs : Int)) else none
      else if c = '+' then
        if cs ≠ [] ∧ cs.all isDigitCh then some ((digitsToNat cs : Int)) else none
      else if (c :: cs).all isDigitCh then some ((digitsToNat (c :: cs) : Int))
      else none) = some (n : Int)
  rw [if_neg (digit_facts hcd).2.2.2.2.1, if_neg (digit_facts hcd).2.2.2.2.2.1,
    if_pos (by
      apply List.all_eq_true.mpr
      intro x hx
      exact (digit_facts (hdig x (by rw [hc]; exact hx))).2.2.2.2.2.2.2.2.1)]
  rw [← hc, digitsToNat_natToDigits]

lemma parseOctets_canonical (n1 n2 n3 n4 : Nat) :
    parseOctets (natToDigits n1 ++ '.' :: (natToDigits n2 ++ '.' :: (natToDigits n3 ++
        '.' :: natToDigits n4))) =
      some [(n1 : Int), (n2 : Int), (n3 : Int), (n4 : Int)] := by
  unfold parseOctets
  rw [splitOnChar_four
    (fun x hx => (digit_facts (natToDigits_digits n1 x hx)).2.1)
    (fun x hx => (digit_facts (natToDigits_digits n2 x hx)).2.1)
    (fun x hx => (digit_facts (natToDigits_digits n3 x hx)).2.1)
    (fun x hx => (digit_facts (natToDigits_digits n4 x hx)).2.1)]
  simp [parseInts, pyIntOpt_natToDigits]

lemma mac_success_inv {m v : List Char} {r : String}
    (h : normalize_mac m = (true, v, r)) :
    ∃ L : List Char, L.length = 12 ∧ (∀ c ∈ L, c ∈ hexChars) ∧
      v = joinSep ':' (chunkPairs (L.map asciiLower)) := by
  unfold normalize_mac at h
  split at h
  · exact absurd h (by simp)
  · dsimp only at h
    split at h
    · next hcond =>
        simp only [Bool.and_eq_true, decide_eq_true_eq, List.all_eq_true] at hcond
        refine ⟨(pyStrip m).filter (fun c => !macSeps.contains c), hcond.1,
          fun c hc => isHexCh_iff.mp (hcond.2 c hc), ?_⟩
        simp only [Prod.mk.injEq, true_and] at h
        exact h.1.symm
    · exact absurd h (by simp)

/-! ### Pipeline component shapes (definitional unfoldings of `processRow`) -/

lemma processRow_issues_eq (row : Row) (o : List Char × List Char × List Char)
    (b : Option (List Char × String)) :
    (processRow row o b).issues =
      (if (ipv4_validate_and_normalize row.ip).1 then []
       else [⟨"ip", (ipv4_validate_and_normalize row.ip).2.2.2, row.ip⟩]) ++
      (if (validate_hostname row.hostname).1 then []
       else if pyStrip row.hostname = [] then []
       else [⟨"hostname", (validate_hostname row.hostname).2, row.hostname⟩]) ++
      (if (validate_fqdn row.fqdn).1 then []
       else if pyStrip row.fqdn = [] then []
       else [⟨"fqdn", (validate_fqdn row.fqdn).2, row.fqdn⟩]) ++
      (if (normalize_mac row.mac).1 then []
       else if pyStrip row.mac = [] then []
       else [⟨"mac", (normalize_mac row.mac).2.2, row.mac⟩]) := rfl

lemma processRow_anomaly_eq (row : Row) (o : List Char × List Char × List Char)
    (b : Option (List Char × String)) :
    (processRow row o b).anomaly =
      (if (processRow row o b).issues = [] then none
       else some ⟨row.source_row_id, (processRow row o b).issues,
         generate_recommendations ((processRow row o b).issues)⟩) := rfl

lemma processRow_fqdn_consistent_eq (row : Row) (o : List Char × List Char × List Char)
    (b : Option (List Char × String)) :
    (processRow row o b).out.fqdn_consistent =
      (if (validate_fqdn row.fqdn).1 then
        check_fqdn_consistency (pyStrip row.hostname) (pyStrip row.fqdn)
      else false) := rfl

/-! ### Recommendation mapping -/

lemma recFor_eq_oneRec {i : Issue}
    (h : i.field = "ip" ∨ i.field = "hostname" ∨ i.field = "fqdn" ∨ i.field = "mac") :
    recFor i = [oneRec i] := by
  rcases h with h | h | h | h <;>
    · unfold recFor oneRec
      simp only [h]
      split_ifs <;> rfl

lemma map_recFor_flatten : ∀ issues : List Issue,
    (∀ i ∈ issues,
      i.field = "ip" ∨ i.field = "hostname" ∨ i.field = "fqdn" ∨ i.field = "mac") →
    (issues.map recFor).flatten = issues.map oneRec
  | [], _ => rfl
  | i :: rest, hf => by
    simp only [List.map_cons, List.flatten_cons]
    rw [recFor_eq_oneRec (hf i (by simp)),
      map_recFor_flatten rest (fun j hj => hf j (by simp [hj]))]
    rfl

lemma generate_recommendations_map {issues : List Issue}
    (hf : ∀ i ∈ issues,
      i.field = "ip" ∨ i.field = "hostname" ∨ i.field = "fqdn" ∨ i.field = "mac")
    (hne : issues ≠ []) :
    generate_recommendations issues = issues.map oneRec := by
  unfold generate_recommendations
  rw [map_recFor_flatten issues hf, if_neg (by simp [hne])]

lemma processRow_issue_fields (row : Row) (o : List Char × List Char × List Char)
    (b : Option (List Char × String)) :
    ∀ i ∈ (processRow row o b).issues,
      i.field = "ip" ∨ i.field = "hostname" ∨ i.field = "fqdn" ∨ i.field = "mac" := by
  intro i hi
  rw [processRow_issues_eq] at hi
  simp only [List.mem_append] at hi
  rcases hi with ((hi | hi) | hi) | hi <;> split_ifs at hi <;> simp_all

lemma recFor_unmatched {i : Issue}
    (h : i.field ≠ "ip" ∧ i.field ≠ "hostname" ∧ i.field ≠ "mac" ∧ i.field ≠ "fqdn") :
    recFor i = [] := by
  unfold recFor
  rw [if_neg h.1, if_neg h.2.1, if_neg h.2.2.1, if_neg h.2.2.2]

lemma map_recFor_flatten_unmatched : ∀ issues : List Issue,
    (∀ i ∈ issues, i.field ≠ "ip" ∧ i.field ≠ "hostname" ∧ i.field ≠ "mac" ∧
      i.field ≠ "fqdn") →
    (issues.map recFor).flatten = []
  | [], _ => rfl
  | i :: rest, hf => by
    simp only [List.map_cons, List.flatten_cons]
    rw [recFor_unmatched (hf i (by simp)),
      map_recFor_flatten_unmatched rest (fun j hj => hf j (by simp [hj]))]
    rfl

end Support

/-! ## Claims -/

/-- Claim C1: for every 4-tuple of integers (a,b,c,d) each in [0,255], applying
`ipv4_validate_and_normalize` to any dotted string whose four parts are decimal
renderings of a, b, c, d (including forms with leading zeros, after trimming
surrounding whitespace) returns valid = true, reason code "ok", ip_version "4",
and the canonical dotted string "a.b.c.d" with leading zeros stripped from
every octet. -/
theorem ipv4_accepts_all_valid_octet_tuples
    (a b c d : Nat) (p1 p2 p3 p4 w1 w2 : List Char)
    (ha : a ≤ 255) (hb : b ≤ 255) (hcv : c ≤ 255) (hdv : d ≤ 255)
    (h1 : p1 ≠ []) (d1 : ∀ x ∈ p1, isDigitCh x = true) (e1 : digitsToNat p1 = a)
    (h2 : p2 ≠ []) (d2 : ∀ x ∈ p2, isDigitCh x = true) (e2 : digitsToNat p2 = b)
    (h3 : p3 ≠ []) (d3 : ∀ x ∈ p3, isDigitCh x = true) (e3 : digitsToNat p3 = c)
    (h4 : p4 ≠ []) (d4 : ∀ x ∈ p4, isDigitCh x = true) (e4 : digitsToNat p4 = d)
    (hw1 : ∀ x ∈ w1, isSpaceCh x = true) (hw2 : ∀ x ∈ w2, isSpaceCh x = true) :
    ipv4_validate_and_normalize
        (w1 ++ (p1 ++ '.' :: (p2 ++ '.' :: (p3 ++ '.' :: p4))) ++ w2) =
      (true,
        natToDigits a ++ '.' :: (natToDigits b ++ '.' :: (natToDigits c ++
          '.' :: natToDigits d)),
        "4", "ok") ∧
    (∀ n ∈ [a, b, c, d], ∀ ch, (natToDigits n).head? = some ch → ch = '0' →
      natToDigits n = ['0']) := by
  constructor
  · have h := ipv4_wellformed hw1 hw2
      h1 (fun x hx => isDigitCh_iff.mp (d1 x hx)) (by omega)
      h2 (fun x hx => isDigitCh_iff.mp (d2 x hx)) (by omega)
      h3 (fun x hx => isDigitCh_iff.mp (d3 x hx)) (by omega)
      h4 (fun x hx => isDigitCh_iff.mp (d4 x hx)) (by omega)
    rw [e1, e2, e3, e4] at h
    exact h
  · intro n _ ch hch h0
    by_cases hz : n = 0
    · rw [hz]; decide
    · exact absurd h0 (natToDigits_head_ne_zero (Nat.pos_of_ne_zero hz) ch hch)

theorem ipv4_accepts_all_valid_octet_tuples_witness :
    ipv4_validate_and_normalize (str " 010.2.3.000 ") =
      (true, str "10.2.3.0", "4", "ok") := by
  have h := ipv4_accepts_all_valid_octet_tuples 10 2 3 0
    (str "010") (str "2") (str "3") (str "000") (str " ") (str " ")
    (by decide) (by decide) (by decide) (by decide)
    (by decide) (by decide) (by decide)
    (by decide) (by decide) (by decide)
    (by decide) (by decide) (by decide)
    (by decide) (by decide) (by decide)
    (by decide) (by decide)
  rw [show str " 010.2.3.000 " =
    str " " ++ (str "010" ++ '.' :: (str "2" ++ '.' :: (str "3" ++ '.' :: str "000"))) ++
      str " " by decide]
  rw [h.1]
  decide

/-- Claim C6: for every input string, each field validator satisfies the
invariant: the valid flag is true if and only if the reason code is "ok". -/
theorem validators_valid_iff_ok (s : List Char) :
    ((ipv4_validate_and_normalize s).1 = true ↔
      (ipv4_validate_and_normalize s).2.2.2 = "ok") ∧
    ((validate_hostname s).1 = true ↔ (validate_hostname s).2 = "ok") ∧
    ((validate_fqdn s).1 = true ↔ (validate_fqdn s).2 = "ok") ∧
    ((normalize_mac s).1 = true ↔ (normalize_mac s).2.2 = "ok") := by
  refine ⟨?_, ?_, ?_, ?_⟩
  · unfold ipv4_validate_and_normalize
    split
    · simp
    · dsimp only
      split
      · simp
      · split
        · simp
        · split
          · next r heq =>
              rcases octetsCheck_error heq with h | h | h | h <;> subst h <;> simp
          · simp
  · unfold validate_hostname
    split
    · simp
    · dsimp only
      split
      · simp
      · split
        · simp
        · simp
  · unfold validate_fqdn
    split
    · simp
    · dsimp only
      split
      · simp
      · exact fqdnLabelsCheck_ok_iff _
  · unfold normalize_mac
    split
    · simp
    · dsimp only
      split
      · simp
      · simp

/-- Claim C4 counterexample: the string "::1" has one dot-separated part (≠ 4),
yet `ipv4_validate_and_normalize` reports reason "ipv6_detected", not
"wrong_part_count" (the ':' check precedes the part count check). -/
theorem wrong_part_count_counterexample :
    (splitOnChar '.' (pyStrip (str "::1"))).length = 1 ∧
    ipv4_validate_and_normalize (str "::1") = (false, str "::1", "6", "ipv6_detected") ∧
    (ipv4_validate_and_normalize (str "::1")).2.2.2 ≠ "wrong_part_count" := by decide

/-- Claim C4 amended: for every input string that is non-empty and not "N/A"
after trimming and whose trimmed form contains no ':' and no '%', a number of
dot-separated parts different from 4 yields valid = false with reason
"wrong_part_count" (and the trimmed input is preserved). -/
theorem wrong_part_count_amended (s : List Char)
    (hne : pyStrip s ≠ []) (hna : pyUpper (pyStrip s) ≠ str "N/A")
    (hcolon : hasCh (pyStrip s) ':' = false) (hpct : hasCh (pyStrip s) '%' = false)
    (hparts : (splitOnChar '.' (pyStrip s)).length ≠ 4) :
    ipv4_validate_and_normalize s = (false, pyStrip s, "", "wrong_part_count") := by
  unfold ipv4_validate_and_normalize
  rw [if_neg (by rintro (h | h); exacts [hne h, hna h])]
  simp only [hcolon, hpct, Bool.or_self, Bool.false_eq_true, if_false]
  rw [if_pos hparts]

theorem wrong_part_count_amended_witness :
    ipv4_validate_and_normalize (str "1.2.3") = (false, str "1.2.3", "", "wrong_part_count") := by
  exact (wrong_part_count_amended (str "1.2.3") (by decide) (by decide) (by decide)
    (by decide) (by decide)).trans (by decide)

/-- Claim C5 counterexample: `normalize_site` is not idempotent.  On "lab1" the
word-boundary substitution `lab → Lab` cannot fire (the following digit is a
word character), and the letter-digit spacing then produces "lab 1"; re-running
on "lab 1" the substitution does fire and yields "Lab 1" ≠ "lab 1". -/
theorem site_normalizer_not_idempotent :
    normalize_site (str "lab1") = str "lab 1" ∧
    normalize_site (normalize_site (str "lab1")) = str "Lab 1" ∧
    normalize_site (normalize_site (str "lab1")) ≠ normalize_site (str "lab1") := by
  decide

/-- Claim C5 amended: the IP and MAC normalizers are idempotent on their
outputs: whenever `ipv4_validate_and_normalize` succeeds, re-running it on the
canonical IP it produced returns that same canonical value (valid, version "4",
reason "ok"), and whenever `normalize_mac` succeeds, re-running it on the
canonical MAC it produced returns that same canonical value.  (The site
normalizer is not idempotent in general — see the counterexample "lab1".) -/
theorem ip_mac_normalized_outputs_fixed_points :
    (∀ (s v : List Char) (ver r : String),
      ipv4_validate_and_normalize s = (true, v, ver, r) →
      ipv4_validate_and_normalize v = (true, v, "4", "ok")) ∧
    (∀ (m v : List Char) (r : String),
      normalize_mac m = (true, v, r) → normalize_mac v = (true, v, "ok")) := by
  constructor
  · intro s v ver r h
    exact ipv4_fixed h
  · intro m v r h
    obtain ⟨L, hlen, hhex, rfl⟩ := mac_success_inv h
    exact mac_fixed_core hlen hhex

/-- Claim C8: for every canonically valid IPv4 address a.b.c.d, the scope is
private_rfc1918 exactly when a = 10, or a = 172 with 16 ≤ b ≤ 31, or a = 192 and
b = 168; for private addresses `default_subnet` returns "a.b.c.0/24" and for all
other scopes the empty string; and `generate_reverse_ptr` returns
"d.c.b.a.in-addr.arpa" for a valid IP and the empty string when ip_valid is
false. -/
theorem ipv4_scope_subnet_reverse_ptr (a b c d : Nat)
    (ha : a ≤ 255) (hb : b ≤ 255) (hcv : c ≤ 255) (hdv : d ≤ 255)
    (ip : List Char)
    (hip : ip = natToDigits a ++ '.' :: (natToDigits b ++ '.' :: (natToDigits c ++
      '.' :: natToDigits d))) :
    (classify_ipv4_type ip = "private_rfc1918" ↔
      (a = 10 ∨ (a = 172 ∧ 16 ≤ b ∧ b ≤ 31) ∨ (a = 192 ∧ b = 168))) ∧
    (classify_ipv4_type ip = "private_rfc1918" →
      default_subnet ip = natToDigits a ++ '.' :: (natToDigits b ++ '.' ::
        (natToDigits c ++ str ".0/24"))) ∧
    (classify_ipv4_type ip ≠ "private_rfc1918" → default_subnet ip = []) ∧
    generate_reverse_ptr ip true = natToDigits d ++ '.' :: (natToDigits c ++ '.' ::
      (natToDigits b ++ '.' :: (natToDigits a ++ str ".in-addr.arpa"))) ∧
    (∀ s : List Char, generate_reverse_ptr s false = []) := by
  subst hip
  have hpo := parseOctets_canonical a b c d
  have hcl : classify_ipv4_type (natToDigits a ++ '.' :: (natToDigits b ++ '.' ::
      (natToDigits c ++ '.' :: natToDigits d))) =
      (if (a : Int) = 10 then "private_rfc1918"
       else if (a : Int) = 172 then
         (if 16 ≤ (b : Int) ∧ (b : Int) ≤ 31 then "private_rfc1918" else "public_or_other")
       else if (a : Int) = 192 then
         (if (b : Int) = 168 then "private_rfc1918" else "public_or_other")
       else if (a : Int) = 169 then
         (if (b : Int) = 254 then "link_local_apipa" else "public_or_other")
       else if (a : Int) = 127 then "loopback"
       else "public_or_other") := by
    unfold classify_ipv4_type
    rw [hpo]
    rfl
  have hir : ∀ n : Nat, intRender (n : Int) = natToDigits n := by
    intro n
    unfold intRender
    rw [if_neg (Int.not_ofNat_neg n)]
    rfl
  refine ⟨?_, ?_, ?_, ?_, ?_⟩
  · rw [hcl]
    split_ifs with h1 h2 h3 h4 h5 h6 <;>
      first
        | exact iff_of_true rfl (by omega)
        | exact iff_of_false (by decide) (by omega)
  · intro hpriv
    unfold default_subnet
    rw [if_pos hpriv, hpo]
    show intRender (a : Int) ++ '.' :: intRender (b : Int) ++ '.' ::
      intRender (c : Int) ++ str ".0/24" = _
    rw [hir, hir, hir]
    simp
  · intro hnp
    unfold default_subnet
    rw [if_neg hnp]
  · unfold generate_reverse_ptr
    rw [if_neg (by decide)]
    rw [splitOnChar_four
      (fun x hx => (digit_facts (natToDigits_digits a x hx)).2.1)
      (fun x hx => (digit_facts (natToDigits_digits b x hx)).2.1)
      (fun x hx => (digit_facts (natToDigits_digits c x hx)).2.1)
      (fun x hx => (digit_facts (natToDigits_digits d x hx)).2.1)]
    dsimp only
    simp
  · intro s
    rfl

/-- Claim C2 counterexample: for hostname "web-01" and fqdn "web-01.-x" both
non-empty, the fqdn — compared case-insensitively — starts with hostname + ".",
yet the emitted fqdn_consistent flag is false, because the pipeline hard-codes
the flag to false whenever `validate_fqdn` fails ("-x" is an invalid label).
So the flag is not independent of the fqdn's own validation. -/
theorem fqdn_consistent_counterexample :
    (processRow ⟨str "10.0.0.1", str "web-01", str "web-01.-x", str "", str "", str "",
        str "", str "", str "r2"⟩ ([], [], []) none).out.fqdn_consistent = false ∧
    str "web-01" ≠ [] ∧ str "web-01.-x" ≠ [] ∧
    startsWith (pyLower (str "web-01.-x")) (pyLower (str "web-01") ++ ['.']) = true := by
  decide

/-- Claim C2 amended: the emitted fqdn_consistent flag is true iff the fqdn
passes `validate_fqdn` AND both the trimmed hostname and the trimmed fqdn are
non-empty AND the trimmed fqdn, compared case-insensitively, starts with the
trimmed hostname followed by ".".  (It remains independent of the hostname's
own validation, but not of the fqdn's.) -/
theorem fqdn_consistent_flag_characterization (row : Row)
    (ownerRes : List Char × List Char × List Char)
    (backend : Option (List Char × String)) :
    (processRow row ownerRes backend).out.fqdn_consistent = true ↔
      ((validate_fqdn row.fqdn).1 = true ∧ pyStrip row.hostname ≠ [] ∧
        pyStrip row.fqdn ≠ [] ∧
        startsWith (pyLower (pyStrip row.fqdn))
          (pyLower (pyStrip row.hostname) ++ ['.']) = true) := by
  rw [processRow_fqdn_consistent_eq]
  by_cases hval : (validate_fqdn row.fqdn).1 = true
  · rw [if_pos hval]
    unfold check_fqdn_consistency
    by_cases hemp : pyStrip row.hostname = [] ∨ pyStrip row.fqdn = []
    · rw [if_pos hemp]
      simp only [Bool.false_eq_true, false_iff]
      rintro ⟨_, hh, hf, _⟩
      rcases hemp with hemp | hemp
      · exact hh hemp
      · exact hf hemp
    · rw [if_neg hemp]
      push_neg at hemp
      constructor
      · intro hs
        exact ⟨hval, hemp.1, hemp.2, hs⟩
      · intro hs
        exact hs.2.2.2
  · rw [if_neg hval]
    simp only [Bool.false_eq_true, false_iff]
    rintro ⟨hv, _, _, _⟩
    exact hval hv

/-- Claim C3 counterexample: the trace has no "owner_trim" token at all (the
owner, device-type and site stages emit no trim token), and a failed fqdn
validation appends no "fqdn_invalid_<reason>" token. -/
theorem normalization_steps_counterexample :
    "owner_trim" ∉ (processRow ⟨str "10.0.0.1", str "web-01",
        str "web-01.corp.example.com", str "", str "", str "", str "", str "",
        str "r3"⟩ ([], [], []) none).out.normalization_steps ∧
    (validate_fqdn (str "web-01.-x")).1 = false ∧
    (validate_fqdn (str "web-01.-x")).2 = "invalid_label_format" ∧
    "fqdn_invalid_invalid_label_format" ∉ (processRow ⟨str "10.0.0.1", str "web-01",
        str "web-01.-x", str "", str "", str "", str "", str "",
        str "r3"⟩ ([], [], []) none).out.normalization_steps := by
  decide

/-- Claim C3 amended: the trace is, in order: "ip_trim", then the ip stage's
success tokens ("ip_parse", "ip_normalize") or its failure token
"ip_invalid_<reason>"; "hostname_trim", then "hostname_validate" or
"hostname_invalid_<reason>"; "fqdn_trim", then "fqdn_validate" on success and
nothing on failure; "mac_trim", then "mac_normalize" on success,
"mac_invalid_<reason>" on failure with a non-empty trimmed mac, and nothing for
an empty mac; and finally "owner_parse_llm",
"device_classify_llm_<confidence>" and "site_normalize" — with no trim token
for the owner, device-type or site stages.  The owner and device-type tokens
are appended regardless of which backend ran. -/
theorem normalization_steps_structure (row : Row)
    (ownerRes : List Char × List Char × List Char)
    (backend : Option (List Char × String)) :
    (processRow row ownerRes backend).out.normalization_steps =
      ["ip_trim"] ++
      (if (ipv4_validate_and_normalize row.ip).1 then ["ip_parse", "ip_normalize"]
       else ["ip_invalid_" ++ (ipv4_validate_and_normalize row.ip).2.2.2]) ++
      ["hostname_trim"] ++
      (if (validate_hostname row.hostname).1 then ["hostname_validate"]
       else ["hostname_invalid_" ++ (validate_hostname row.hostname).2]) ++
      ["fqdn_trim"] ++
      (if (validate_fqdn row.fqdn).1 then ["fqdn_validate"] else []) ++
      ["mac_trim"] ++
      (if (normalize_mac row.mac).1 then ["mac_normalize"]
       else if pyStrip row.mac = [] then []
       else ["mac_invalid_" ++ (normalize_mac row.mac).2.2]) ++
      ["owner_parse_llm",
       "device_classify_llm_" ++ (classify_device_type_llm backend row).2,
       "site_normalize"] := rfl

theorem ipv4_scope_subnet_reverse_ptr_witness :
    classify_ipv4_type (str "10.1.2.3") = "private_rfc1918" ∧
    default_subnet (str "10.1.2.3") = str "10.1.2.0/24" ∧
    generate_reverse_ptr (str "10.1.2.3") true = str "3.2.1.10.in-addr.arpa" ∧
    generate_reverse_ptr (str "junk") false = [] := by
  have h := ipv4_scope_subnet_reverse_ptr 10 1 2 3 (by decide) (by decide) (by decide)
    (by decide) (str "10.1.2.3") (by decide)
  have hpriv := h.1.mpr (Or.inl rfl)
  exact ⟨hpriv, (h.2.1 hpriv).trans (by decide), h.2.2.2.1.trans (by decide),
    h.2.2.2.2 (str "junk")⟩

/-- Claim C7: for every input record, an Anomaly is constructed iff the
record's collected issue sequence is non-empty; its recommended_actions has
exactly one recommendation per issue, in issue order, following the fixed
field + reason mapping (`oneRec`); and if no issue matches any rule,
`generate_recommendations` emits the single default
"Review and correct field data". -/
theorem anomaly_construction_and_recommendations :
    (∀ (row : Row) (o : List Char × List Char × List Char)
        (b : Option (List Char × String)),
      (processRow row o b).anomaly =
        (if (processRow row o b).issues = [] then none
         else some ⟨row.source_row_id, (processRow row o b).issues,
           ((processRow row o b).issues).map oneRec⟩)) ∧
    (∀ issues : List Issue,
      (∀ i ∈ issues, i.field ≠ "ip" ∧ i.field ≠ "hostname" ∧ i.field ≠ "mac" ∧
        i.field ≠ "fqdn") →
      generate_recommendations issues = ["Review and correct field data"]) := by
  constructor
  · intro row o b
    rw [processRow_anomaly_eq]
    by_cases hemp : (processRow row o b).issues = []
    · rw [if_pos hemp, if_pos hemp]
    · rw [if_neg hemp, if_neg hemp,
        generate_recommendations_map (processRow_issue_fields row o b) hemp]
  · intro issues hf
    unfold generate_recommendations
    rw [map_recFor_flatten_unmatched issues hf]
    rfl

theorem anomaly_construction_and_recommendations_witness :
    (processRow ⟨str "300.1.1.1", str "web-01", str "web-01.corp.example.com",
        str "AA-BB-CC-DD-EE-FF", str "", str "server", str "", str "", str "r4"⟩
      ([], [], []) none).anomaly =
      some ⟨str "r4", [⟨"ip", "octet_out_of_range", str "300.1.1.1"⟩],
        ["Correct IP octets to valid range (0-255)"]⟩ ∧
    generate_recommendations [⟨"site", "weird", []⟩] =
      ["Review and correct field data"] := by
  constructor
  · exact (anomaly_construction_and_recommendations.1
      ⟨str "300.1.1.1", str "web-01", str "web-01.corp.example.com",
        str "AA-BB-CC-DD-EE-FF", str "", str "server", str "", str "", str "r4"⟩
      ([], [], []) none).trans (by decide)
  · exact anomaly_construction_and_recommendations.2 [⟨"site", "weird", []⟩] (by decide)

/-- Claim C9: if the lower-cased trimmed explicit device_type is in the fixed
known set, the classifier returns it with confidence "high" for every backend
(so without consulting the backend); otherwise, with the backend unavailable,
the fallback scans the lower-cased concatenation of (trimmed) hostname and
notes for substring matches against the fixed keyword sets in the fixed
priority order server, router, switch, printer, iot, access point, firewall,
workstation, returning the first matching category with confidence "medium",
and ("unknown", "low") when nothing matches. -/
theorem device_classifier_explicit_and_fallback :
    (∀ (backend : Option (List Char × String)) (row : Row),
      pyLower (pyStrip row.device_type) ∈ knownTypes →
      classify_device_type_llm backend row =
        (pyLower (pyStrip row.device_type), "high")) ∧
    (∀ row : Row, pyLower (pyStrip row.device_type) ∉ knownTypes →
      classify_device_type_llm none row =
        (match fallbackCats.find? (fun cat => cat.2.any (fun k =>
            containsSub (pyLower (pyStrip row.hostname ++ ' ' :: pyStrip row.notes)) k))
          with
         | some cat => (cat.1, "medium")
         | none => (str "unknown", "low"))) := by
  constructor
  · intro backend row h
    unfold classify_device_type_llm
    rw [if_pos h]
  · intro row h
    unfold classify_device_type_llm
    rw [if_neg h]
    dsimp only
    set clues := pyLower (pyStrip row.hostname ++ ' ' :: pyStrip row.notes) with hclues
    by_cases h1 : (serverKeys.any fun k => containsSub clues k) = true
    · rw [if_pos h1]
      simp [fallbackCats, List.find?_cons, h1]
    · rw [if_neg h1]
      by_cases h2 : (routerKeys.any fun k => containsSub clues k) = true
      · rw [if_pos h2]
        simp [fallbackCats, List.find?_cons, h1, h2]
      · rw [if_neg h2]
        by_cases h3 : (switchKeys.any fun k => containsSub clues k) = true
        · rw [if_pos h3]
          simp [fallbackCats, List.find?_cons, h1, h2, h3]
        · rw [if_neg h3]
          by_cases h4 : (printerKeys.any fun k => containsSub clues k) = true
          · rw [if_pos h4]
            simp [fallbackCats, List.find?_cons, h1, h2, h3, h4]
          · rw [if_neg h4]
            by_cases h5 : (iotKeys.any fun k => containsSub clues k) = true
            · rw [if_pos h5]
              simp [fallbackCats, List.find?_cons, h1, h2, h3, h4, h5]
            · rw [if_neg h5]
              by_cases h6 : (apKeys.any fun k => containsSub clues k) = true
              · rw [if_pos h6]
                simp [fallbackCats, List.find?_cons, h1, h2, h3, h4, h5, h6]
              · rw [if_neg h6]
                by_cases h7 : (firewallKeys.any fun k => containsSub clues k) = true
                · rw [if_pos h7]
                  simp [fallbackCats, List.find?_cons, h1, h2, h3, h4, h5, h6, h7]
                · rw [if_neg h7]
                  by_cases h8 : (workstationKeys.any fun k => containsSub clues k) = true
                  · rw [if_pos h8]
                    simp [fallbackCats, List.find?_cons, h1, h2, h3, h4, h5, h6, h7, h8]
                  · rw [if_neg h8]
                    simp [fallbackCats, List.find?_cons, h1, h2, h3, h4, h5, h6, h7, h8]

theorem device_classifier_explicit_and_fallback_witness :
    classify_device_type_llm (some (str "printer", "medium"))
      ⟨str "", str "core-1", str "", str "", str "", str " Server ", str "", str "",
        str "r5"⟩ = (str "server", "high") ∧
    classify_device_type_llm none
      ⟨str "", str "core-1", str "", str "", str "", str "", str "", str "",
        str "r5"⟩ = (str "switch", "medium") := by
  constructor
  · exact device_classifier_explicit_and_fallback.1 (some (str "printer", "medium"))
      ⟨str "", str "core-1", str "", str "", str "", str " Server ", str "", str "",
        str "r5"⟩ (by decide)
  · exact (device_classifier_explicit_and_fallback.2
      ⟨str "", str "core-1", str "", str "", str "", str "", str "", str "",
        str "r5"⟩ (by decide)).trans (by decide)

theorem ip_mac_normalized_outputs_fixed_points_witness :
    ipv4_validate_and_normalize (str "10.1.2.3") = (true, str "10.1.2.3", "4", "ok") ∧
    normalize_mac (str "aa:bb:cc:dd:ee:ff") = (true, str "aa:bb:cc:dd:ee:ff", "ok") := by
  constructor
  · exact ip_mac_normalized_outputs_fixed_points.1 (str " 10.1.2.3") (str "10.1.2.3")
      "4" "ok" (by decide)
  · exact ip_mac_normalized_outputs_fixed_points.2 (str "AA-BB-CC-DD-EE-FF")
      (str "aa:bb:cc:dd:ee:ff") "ok" (by decide)

/-- Claim C10: an empty (after trimming) hostname, fqdn, or mac fails its
validator with reason "missing" but contributes no issue to the record's
anomaly issue list — a record whose only validation failures are empty
hostname/fqdn/mac fields (with a valid ip) produces no Anomaly — whereas an
empty or "N/A" ip does contribute an issue of type "missing" and therefore
does trigger an Anomaly. -/
theorem empty_fields_missing_but_no_issue :
    (∀ h : List Char, pyStrip h = [] → validate_hostname h = (false, "missing")) ∧
    (∀ f : List Char, pyStrip f = [] → validate_fqdn f = (false, "missing")) ∧
    (∀ m : List Char, pyStrip m = [] → normalize_mac m = (false, [], "missing")) ∧
    (∀ (row : Row) (o : List Char × List Char × List Char)
        (b : Option (List Char × String)), pyStrip row.hostname = [] →
      ∀ i ∈ (processRow row o b).issues, i.field ≠ "hostname") ∧
    (∀ (row : Row) (o : List Char × List Char × List Char)
        (b : Option (List Char × String)), pyStrip row.fqdn = [] →
      ∀ i ∈ (processRow row o b).issues, i.field ≠ "fqdn") ∧
    (∀ (row : Row) (o : List Char × List Char × List Char)
        (b : Option (List Char × String)), pyStrip row.mac = [] →
      ∀ i ∈ (processRow row o b).issues, i.field ≠ "mac") ∧
    (∀ (row : Row) (o : List Char × List Char × List Char)
        (b : Option (List Char × String)),
      (ipv4_validate_and_normalize row.ip).1 = true → pyStrip row.hostname = [] →
      pyStrip row.fqdn = [] → pyStrip row.mac = [] →
      (processRow row o b).anomaly = none) ∧
    (∀ (row : Row) (o : List Char × List Char × List Char)
        (b : Option (List Char × String)),
      (pyStrip row.ip = [] ∨ pyUpper (pyStrip row.ip) = str "N/A") →
      (ipv4_validate_and_normalize row.ip).2.2.2 = "missing" ∧
      (⟨"ip", "missing", row.ip⟩ : Issue) ∈ (processRow row o b).issues ∧
      (processRow row o b).anomaly ≠ none) := by
  have hmiss : ∀ ip : List Char,
      (pyStrip ip = [] ∨ pyUpper (pyStrip ip) = str "N/A") →
      ipv4_validate_and_normalize ip = (false, ip, "", "missing") := by
    intro ip hip
    unfold ipv4_validate_and_normalize
    rw [if_pos hip]
  refine ⟨?_, ?_, ?_, ?_, ?_, ?_, ?_, ?_⟩
  · intro h hh
    unfold validate_hostname
    rw [if_pos hh]
  · intro f hf
    unfold validate_fqdn
    rw [if_pos hf]
  · intro m hm
    unfold normalize_mac
    rw [if_pos hm]
  · intro row o b hh i hi
    rw [processRow_issues_eq] at hi
    simp only [hh, if_pos, if_true] at hi
    simp only [List.mem_append] at hi
    rcases hi with ((hi | hi) | hi) | hi <;> split_ifs at hi <;> simp_all
  · intro row o b hf i hi
    rw [processRow_issues_eq] at hi
    simp only [hf, if_pos, if_true] at hi
    simp only [List.mem_append] at hi
    rcases hi with ((hi | hi) | hi) | hi <;> split_ifs at hi <;> simp_all
  · intro row o b hm i hi
    rw [processRow_issues_eq] at hi
    simp only [hm, if_pos, if_true] at hi
    simp only [List.mem_append] at hi
    rcases hi with ((hi | hi) | hi) | hi <;> split_ifs at hi <;> simp_all
  · intro row o b hip hh hf hm
    rw [processRow_anomaly_eq, if_pos]
    rw [processRow_issues_eq, hip]
    simp [hh, hf, hm]
  · intro row o b hip
    have hres := hmiss row.ip hip
    have hval : (ipv4_validate_and_normalize row.ip).1 = false := by rw [hres]
    have hreason : (ipv4_validate_and_normalize row.ip).2.2.2 = "missing" := by rw [hres]
    refine ⟨hreason, ?_, ?_⟩
    · rw [processRow_issues_eq, hval, hreason]
      simp
    · rw [processRow_anomaly_eq, if_neg]
      · simp
      · rw [processRow_issues_eq, hval, hreason]
        simp

theorem empty_fields_missing_but_no_issue_witness :
    validate_hostname (str "   ") = (false, "missing") ∧
    (processRow ⟨str "10.0.0.1", str " ", str "", str "", str "", str "", str "",
        str "", str "r6"⟩ ([], [], []) none).anomaly = none ∧
    ((⟨"ip", "missing", str "N/A"⟩ : Issue) ∈
      (processRow ⟨str "N/A", str "web-01", str "", str "", str "", str "", str "",
        str "", str "r7"⟩ ([], [], []) none).issues) := by
  refine ⟨empty_fields_missing_but_no_issue.1 (str "   ") (by decide), ?_, ?_⟩
  · exact empty_fields_missing_but_no_issue.2.2.2.2.2.2.1
      ⟨str "10.0.0.1", str " ", str "", str "", str "", str "", str "", str "",
        str "r6"⟩ ([], [], []) none (by decide) (by decide) (by decide) (by decide)
  · exact (empty_fields_missing_but_no_issue.2.2.2.2.2.2.2
      ⟨str "N/A", str "web-01", str "", str "", str "", str "", str "", str "",
        str "r7"⟩ ([], [], []) none (by decide)).2.1

end DataNorm
